import Mathlib

/-!
Verification of the cannoli run orchestrator (`run.ts`).

This file embeds the data model and the operations of the `Run` class:
the usage/cost accountant, the terminal-stoppage lifecycle, the mock and
real branches of `callLLM`, the three-color DAG check, and (modelled from
the spec, since the library is external) the `p-limit` concurrency gate.
JavaScript numbers that carry prices and token counts are modelled as
exact rationals; a JavaScript `undefined` stored in a typed field is
modelled as an `Option`, and a thrown `TypeError` as `Except.error`.
-/

namespace Cannoli

deriving instance DecidableEq for Except

/-- Stoppage reasons, from `type StoppageReason = "user" | "error" | "complete"`. -/
inductive StoppageReason where
  | user
  | error
  | complete
deriving DecidableEq

/-- Static price-table entry, from `interface Model`. -/
structure Model where
  name : String
  promptTokenPrice : ℚ
  completionTokenPrice : ℚ
deriving DecidableEq

/-- Accumulated per-model counters, from `interface ModelUsage`.
`promptTokens` is rational because the mock branch adds `length / 4`. -/
structure ModelUsage where
  promptTokens : ℚ
  completionTokens : ℚ
  apiCalls : Nat
  totalCost : ℚ
deriving DecidableEq

/-- A usage record, from `interface Usage`.  The TypeScript field `model`
has type `Model`, but at runtime `this.modelInfo[request.model]` is
`undefined` for an unknown model name and that value is stored as-is;
the `Option` models exactly that. -/
structure Usage where
  model : Option Model
  modelUsage : ModelUsage
deriving DecidableEq

/-- Statuses of graph objects.  Modelled from the spec: the
`CannoliObjectStatus` enum lives in `models/graph`, outside the provided
source; the spec lists the closed taxonomy
`Pending | Executing | Complete | Rejected | Error | Warning`. -/
inductive CannoliObjectStatus where
  | Pending
  | Executing
  | Complete
  | Rejected
  | Error
  | Warning
deriving DecidableEq

/-- The terminal notification, from `interface Stoppage`. -/
structure Stoppage where
  reason : StoppageReason
  usage : List (String × Usage)
  totalCost : ℚ
  message : Option String
deriving DecidableEq

/-- The orchestrator state that the claims speak about: the statuses of
the graph objects (in `Object.values` order), the `usage` table (a
JavaScript record, modelled as an association list in insertion order),
the `isStopped` flag, and the log of `onFinish` notifications. -/
structure Run where
  statuses : List CannoliObjectStatus
  usage : List (String × Usage)
  isStopped : Bool
  stoppages : List Stoppage
deriving DecidableEq

/-- The static price table `Run.modelInfo`; `0.03 / 1000` etc. as exact
rationals.  Lookup of any other name is `undefined`. -/
def modelInfo (name : String) : Option Model :=
  if name = "gpt-4" then
    some ⟨"gpt-4", 3 / 100000, 6 / 100000⟩
  else if name = "gpt-3.5-turbo" then
    some ⟨"gpt-3.5-turbo", 15 / 10000000, 2 / 1000000⟩
  else
    none

/-- Lookup in a JavaScript record modelled as an association list. -/
def tblLookup {α : Type} : List (String × α) → String → Option α
  | [], _ => none
  | (k, a) :: rest, key => if key = k then some a else tblLookup rest key

/-- Point update of a JavaScript record modelled as an association list. -/
def tblUpdate {α : Type} (f : α → α) : List (String × α) → String → List (String × α)
  | [], _ => []
  | (k, a) :: rest, key =>
    if key = k then (k, f a) :: tblUpdate f rest key
    else (k, a) :: tblUpdate f rest key

/-- `Run.calculateLLMCostForModel`:
`promptCost = usage.model.promptTokenPrice * usage.modelUsage.promptTokens`,
`completionCost = usage.model.completionTokenPrice * usage.modelUsage.completionTokens`,
returns their sum.  When `usage.model` is `undefined` (unknown model
name), reading `promptTokenPrice` throws a `TypeError`. -/
def calculateLLMCostForModel (usage : Usage) : Except String ℚ :=
  match usage.model with
  | none => Except.error "TypeError: Cannot read properties of undefined (reading promptTokenPrice)"
  | some m =>
      Except.ok (m.promptTokenPrice * usage.modelUsage.promptTokens +
        m.completionTokenPrice * usage.modelUsage.completionTokens)

/-- The entry rewrite performed by `calculateAllLLMCosts` on one usage
record: `usage.modelUsage.totalCost = this.calculateLLMCostForModel(usage)`. -/
def costEntry (kv : String × Usage) : Except String (String × Usage) :=
  match calculateLLMCostForModel kv.2 with
  | Except.error e => Except.error e
  | Except.ok c =>
      Except.ok (kv.1, { kv.2 with modelUsage := { kv.2.modelUsage with totalCost := c } })

/-- The `for (const usage of Object.values(this.usage))` loop of
`calculateAllLLMCosts`, with exception propagation. -/
def mapEntries (f : (String × Usage) → Except String (String × Usage)) :
    List (String × Usage) → Except String (List (String × Usage))
  | [] => Except.ok []
  | kv :: rest =>
    match f kv with
    | Except.error e => Except.error e
    | Except.ok kv1 =>
      match mapEntries f rest with
      | Except.error e => Except.error e
      | Except.ok rest1 => Except.ok (kv1 :: rest1)

/-- `Run.calculateAllLLMCosts`: writes `totalCost` into every usage entry
in place and returns the run's own (now updated) `usage` table. -/
def calculateAllLLMCosts (r : Run) : Except String (Run × List (String × Usage)) :=
  match mapEntries costEntry r.usage with
  | Except.error e => Except.error e
  | Except.ok updated => Except.ok ({ r with usage := updated }, updated)

/-- The accumulation loop of `Run.getTotalCost`. -/
def sumCosts (acc : ℚ) : List (String × Usage) → Except String ℚ
  | [] => Except.ok acc
  | kv :: rest =>
    match calculateLLMCostForModel kv.2 with
    | Except.error e => Except.error e
    | Except.ok c => sumCosts (acc + c) rest

/-- `Run.getTotalCost`: recomputes the per-model cost of every entry and
sums it. -/
def Run.getTotalCost (r : Run) : Except String ℚ :=
  sumCosts 0 r.usage

/-- The `this.onFinish({ reason, usage: this.calculateAllLLMCosts(),
totalCost: this.getTotalCost(), message? })` shape shared by `stop`,
`error` and the completion check: evaluate `calculateAllLLMCosts()` (which
mutates and returns the run's `usage` table), then `getTotalCost()`, then
log the notification; either cost computation can throw. -/
def emitStoppage (r : Run) (reason : StoppageReason) (message : Option String) :
    Except String Run :=
  match calculateAllLLMCosts r with
  | Except.error e => Except.error e
  | Except.ok (r1, table) =>
    match Run.getTotalCost r1 with
    | Except.error e => Except.error e
    | Except.ok tc =>
        Except.ok { r1 with stoppages := r1.stoppages ++ [⟨reason, table, tc, message⟩] }

/-- `Run.stop`: sets `isStopped = true` unconditionally, then emits a
`user`-reason stoppage through `onFinish` (there is no flag check). -/
def Run.stop (r : Run) : Except String Run :=
  emitStoppage { r with isStopped := true } StoppageReason.user none

/-- `Run.error`: sets `isStopped = true` unconditionally and emits an
`error`-reason stoppage carrying the message; the JavaScript method then
does `throw new Error(message)`, so its caller unwinds (the returned state
is the state at the moment of the throw). -/
def Run.error (r : Run) (message : String) : Except String Run :=
  emitStoppage { r with isStopped := true } StoppageReason.error (some message)

/-- `Run.allObjectsFinished`: every object's status is `Complete` or
`Rejected`. -/
def allObjectsFinished (statuses : List CannoliObjectStatus) : Bool :=
  statuses.all fun st =>
    st == CannoliObjectStatus.Complete || st == CannoliObjectStatus.Rejected

/-- `Run.objectCompleted` (canvas side effects, which go to the external
collaborator, omitted): if every object is finished and the run is not
already stopped, set the flag and emit a `complete`-reason stoppage. -/
def Run.objectCompleted (r : Run) : Except String Run :=
  if allObjectsFinished r.statuses && !r.isStopped then
    emitStoppage { r with isStopped := true } StoppageReason.complete none
  else Except.ok r

/-- `Run.objectRejected`: textually the same termination check and
emission as `objectCompleted`. -/
def Run.objectRejected (r : Run) : Except String Run :=
  if allObjectsFinished r.statuses && !r.isStopped then
    emitStoppage { r with isStopped := true } StoppageReason.complete none
  else Except.ok r

/-- An OpenAI function-call value, from `ChatCompletionRequestMessage.function_call`. -/
structure FunctionCall where
  name : String
  arguments : String
deriving DecidableEq

/-- A chat message, from `ChatCompletionRequestMessage`. -/
structure ChatMessage where
  role : String
  content : String
  function_call : Option FunctionCall
deriving DecidableEq

/-- One property schema inside a function declaration; `enum` may be
absent. -/
structure PropSchema where
  type : String
  enum : Option (List String)
deriving DecidableEq

/-- The `parameters` object of a `ChatCompletionFunctions` declaration. -/
structure FnParameters where
  type : String
  properties : List (String × PropSchema)
  required : List String
deriving DecidableEq

/-- A function declaration, from `ChatCompletionFunctions`; both
`description` and `parameters` are optional in the OpenAI type. -/
structure ChatFn where
  name : String
  description : Option String
  parameters : Option FnParameters
deriving DecidableEq

/-- A chat-completion request, the fields of `CreateChatCompletionRequest`
that `callLLM` reads. -/
structure ChatRequest where
  model : String
  messages : List ChatMessage
  functions : Option (List ChatFn)
deriving DecidableEq

/-- One message rendered by the mock branch:
`` `${role}: ${content} ${function_call} ` `` when a function call is
present (JavaScript stringifies the object as `[object Object]`), and
`` `${role}: ${content} ` `` otherwise. -/
def textOfMessage (m : ChatMessage) : String :=
  match m.function_call with
  | some _ => m.role ++ ": " ++ m.content ++ " " ++ "[object Object]" ++ " "
  | none => m.role ++ ": " ++ m.content ++ " "

/-- The `textMessages` accumulator of the mock branch. -/
def mockTextMessages (msgs : List ChatMessage) : String :=
  msgs.foldl (fun acc m => acc ++ textOfMessage m) ""

/-- The mock-branch token estimate:
`const promptTokens = textMessages.length / 4`. -/
def mockPromptTokens (request : ChatRequest) : ℚ :=
  ((mockTextMessages request.messages).length : ℚ) / 4

/-- The mock-branch usage update (lines `if (!this.usage[request.model])`
through `apiCalls += 1`): create the entry from the static price table if
absent — an unknown model name stores `model: undefined` — then
accumulate the estimated prompt tokens and the call count. -/
def Run.recordMockUsage (r : Run) (modelName : String) (pt : ℚ) : Run :=
  let tbl0 :=
    match tblLookup r.usage modelName with
    | none => r.usage ++ [(modelName, ⟨modelInfo modelName, ⟨0, 0, 0, 0⟩⟩)]
    | some _ => r.usage
  { r with
      usage := tblUpdate
        (fun u => { u with
            modelUsage := { u.modelUsage with
                promptTokens := u.modelUsage.promptTokens + pt,
                apiCalls := u.modelUsage.apiCalls + 1 } })
        tbl0 modelName }

/-- `request.functions?.find((fn) => fn.name === "enter_choice")`. -/
def findChoiceFn (request : ChatRequest) : Option ChatFn :=
  (request.functions.getD []).find? fun fn => fn.name == "enter_choice"

/-- The template literal of the mock function-call response, whitespace as
in the source. -/
def mkChoiceArgs (choice : String) : String :=
  "\x7b\n\t\t\t\t\t\t\t\t\t\"choice\" : \"" ++ choice ++ "\"\n\t\t\t\t\t\t\t\t\x7d"

/-- The fixed mock placeholder message. -/
def mockPlaceholder : ChatMessage :=
  ⟨"assistant", "Mock response", none⟩

/-- The mock-branch response synthesis.  The guard
`choiceFunction && choiceFunction.parameters && choiceFunction.parameters.properties.choice.enum.length > 0`
throws a `TypeError` when the found `enter_choice` function has
`parameters` but its `properties` lack `choice`, or `choice` lacks
`enum`.  `rand` stands for the `Math.random()` draw; the chosen index is
`Math.floor(rand * enum.length)`, and an out-of-range index would read as
the string `"undefined"`. -/
def mockResponse (request : ChatRequest) (rand : ℚ) : Except String ChatMessage :=
  match findChoiceFn request with
  | none => Except.ok mockPlaceholder
  | some fn =>
    match fn.parameters with
    | none => Except.ok mockPlaceholder
    | some ps =>
      match tblLookup ps.properties "choice" with
      | none => Except.error "TypeError: Cannot read properties of undefined (reading enum)"
      | some sch =>
        match sch.enum with
        | none => Except.error "TypeError: Cannot read properties of undefined (reading length)"
        | some choices =>
          if 0 < choices.length then
            let idx := (Int.floor (rand * (choices.length : ℚ))).toNat
            Except.ok ⟨"assistant", "Mock response",
              some ⟨"enter_choice", mkChoiceArgs (choices.getD idx "undefined")⟩⟩
          else Except.ok mockPlaceholder

/-- The whole mock branch of `callLLM` (`this.isMock || !this.openai`):
the usage table is updated first, then the response is synthesized; an
`Except.error` is a thrown `TypeError`, which rejects the promise because
the mock branch is not wrapped in the `try`. -/
def Run.mockBranch (r : Run) (request : ChatRequest) (rand : ℚ) :
    Run × Except String (ChatMessage ⊕ String) :=
  let r1 := r.recordMockUsage request.model (mockPromptTokens request)
  (r1, (mockResponse request rand).map Sum.inl)

/-- Provider-reported token usage, from `response.data.usage`. -/
structure ApiUsage where
  prompt_tokens : ℚ
  completion_tokens : ℚ
deriving DecidableEq

/-- One element of `response.data.choices`. -/
structure ApiChoice where
  message : Option ChatMessage
deriving DecidableEq

/-- The fields of `response.data` that `callLLM` reads. -/
structure ApiResponse where
  usage : Option ApiUsage
  choices : List ApiChoice
deriving DecidableEq

/-- The real-branch usage recording (`if (response.data.usage) { ... }`):
`const model = this.modelInfo[request.model]` is `undefined` for an
unknown model, so the following `model.name` read throws a `TypeError`
before any entry is stored. -/
def Run.recordRealUsage (r : Run) (modelName : String) (au : ApiUsage) : Except String Run :=
  match modelInfo modelName with
  | none => Except.error "TypeError: Cannot read properties of undefined (reading name)"
  | some m =>
    let tbl0 :=
      match tblLookup r.usage m.name with
      | none => r.usage ++ [(m.name, ⟨some m, ⟨0, 0, 0, 0⟩⟩)]
      | some _ => r.usage
    Except.ok { r with
        usage := tblUpdate
          (fun u => { u with
              modelUsage := { u.modelUsage with
                  promptTokens := u.modelUsage.promptTokens + au.prompt_tokens,
                  completionTokens := u.modelUsage.completionTokens + au.completion_tokens,
                  apiCalls := u.modelUsage.apiCalls + 1 } })
          tbl0 m.name }

/-- `response.data.choices[0].message ? message : Error("No message returned")`:
an empty `choices` array makes the `message` read throw, which the
enclosing `catch` turns into a returned error value. -/
def extractResponseMessage (data : ApiResponse) : ChatMessage ⊕ String :=
  match data.choices with
  | [] => Sum.inr "TypeError: Cannot read properties of undefined (reading message)"
  | c :: _ =>
    match c.message with
    | some msg => Sum.inl msg
    | none => Sum.inr "No message returned"

/-- The real branch of `callLLM`.  Everything from the network call to the
final return sits inside `try { ... } catch (e) { return e; }`, so every
failure comes back as a `Sum.inr` value and the promise itself always
resolves.  `api` is the outcome of `this.openai.createChatCompletion`. -/
def Run.realBranch (r : Run) (request : ChatRequest) (api : Except String ApiResponse) :
    Run × Except String (ChatMessage ⊕ String) :=
  match api with
  | Except.error e => (r, Except.ok (Sum.inr e))
  | Except.ok data =>
    match data.usage with
    | some au =>
      match r.recordRealUsage request.model au with
      | Except.error e => (r, Except.ok (Sum.inr e))
      | Except.ok r1 => (r1, Except.ok (extractResponseMessage data))
    | none => (r, Except.ok (extractResponseMessage data))

/-- `Run.callLLM` without the concurrency gate (treated separately): the
branch condition is `this.isMock || !this.openai`. -/
def Run.callLLM (r : Run) (isMock hasOpenai : Bool) (request : ChatRequest)
    (rand : ℚ) (api : Except String ApiResponse) :
    Run × Except String (ChatMessage ⊕ String) :=
  if isMock || !hasOpenai then r.mockBranch request rand
  else r.realBranch request api

/-- `Run.createChoiceFunction`. -/
def createChoiceFunction (choices : List String) : ChatFn :=
  ⟨"enter_choice",
    some "Enter your answer to the question above using this function.",
    some ⟨"object", [("choice", ⟨"string", some choices⟩)], ["choice"]⟩⟩

/-- Modelled from the spec: the `p-limit` gate is an external library; the
spec fixes its contract — at most `limit` tasks in flight, excess
submissions queued in FIFO submission order and admitted as slots free
up.  `started` records admission order; `queue` holds waiting task ids. -/
structure LimState where
  limit : Nat
  active : Nat
  queue : List Nat
  started : List Nat
deriving DecidableEq

/-- Modelled from the spec: a limiter event is the submission of a task or
the completion of a running task. -/
inductive LimEvent where
  | submit (id : Nat)
  | complete
deriving DecidableEq

/-- Modelled from the spec: one limiter transition.  A submission starts
immediately when a slot is free, otherwise it queues; a completion frees a
slot and immediately admits the queue head if any. -/
def limStep (s : LimState) : LimEvent → LimState
  | LimEvent.submit id =>
    if s.active < s.limit then
      { s with active := s.active + 1, started := s.started ++ [id] }
    else
      { s with queue := s.queue ++ [id] }
  | LimEvent.complete =>
    match s.queue with
    | [] => { s with active := s.active - 1 }
    | h :: t => { s with queue := t, started := s.started ++ [h] }

/-- Modelled from the spec: a run of the limiter over an event sequence. -/
def limRun (s : LimState) : List LimEvent → LimState
  | [] => s
  | e :: es => limRun (limStep s e) es

/-- Modelled from the spec: the limiter starts idle. -/
def limInit (n : Nat) : LimState :=
  ⟨n, 0, [], []⟩

/-- `this.llmLimit = pLimit(llmLimit ?? 10)` from the `Run` constructor:
the configured concurrency bound, defaulting to 10. -/
def mkLlmLimit (llmLimit : Option Nat) : Nat :=
  llmLimit.getD 10

/-- The three colors of the DAG check, from `enum DagCheckState`. -/
inductive DagCheckState where
  | UNVISITED
  | VISITING
  | VISITED
deriving DecidableEq

/-- `states.set(obj, st)` on the color map; an absent key reads as
`UNVISITED` (in the source, `states.get` returns `undefined`, which
compares unequal to both `VISITING` and `VISITED`). -/
def setState {V : Type} [DecidableEq V] (s : V → DagCheckState) (v : V)
    (st : DagCheckState) : V → DagCheckState :=
  fun x => if x = v then st else s x

/-- The `for (const dependency of obj.getAllDependencies())` loop inside
`visit`: visit each dependency in order, short-circuiting on a detected
cycle. -/
def visitList {V : Type}
    (step : (V → DagCheckState) → V → Option ((V → DagCheckState) × Bool)) :
    (V → DagCheckState) → List V → Option ((V → DagCheckState) × Bool)
  | s, [] => some (s, true)
  | s, d :: rest =>
    match step s d with
    | none => none
    | some (s1, false) => some (s1, false)
    | some (s1, true) => visitList step s1 rest

/-- The recursive `visit` of `Run.isDAG`, with an explicit fuel argument
standing for the (finite) call depth; `isDAG` runs it with fuel strictly
larger than the number of vertices, which `visit_isSome` shows is never
exhausted.  Returns the updated color map and the cycle verdict. -/
def visit {V : Type} [DecidableEq V] (deps : V → List V) :
    Nat → (V → DagCheckState) → V → Option ((V → DagCheckState) × Bool)
  | 0 => fun _ _ => none
  | f + 1 => fun s obj =>
    if s obj = DagCheckState.VISITING then some (s, false)
    else if s obj = DagCheckState.VISITED then some (s, true)
    else
      match visitList (visit deps f) (setState s obj DagCheckState.VISITING) (deps obj) with
      | none => none
      | some (s1, false) => some (s1, false)
      | some (s1, true) => some (setState s1 obj DagCheckState.VISITED, true)

/-- The outer loop of `Run.isDAG` over `Object.values(objects)`: nodes not
yet `VISITED` are visited; any detected cycle returns `false`. -/
def dagLoop {V : Type} [DecidableEq V] (deps : V → List V) (f : Nat) :
    (V → DagCheckState) → List V → Bool
  | _, [] => true
  | s, v :: rest =>
    if s v = DagCheckState.VISITED then dagLoop deps f s rest
    else
      match visit deps f s v with
      | none => false
      | some (_, false) => false
      | some (s1, true) => dagLoop deps f s1 rest

/-- The graph as the orchestrator sees it: the `Object.values` list of
objects, each object's `getAllDependencies()` (used by `isDAG`), its
`dependencies` field (used by `start()` to seed execution), and whether it
is a `CannoliVertex` (used by `validate()` to deliver the cycle error). -/
structure RunGraph (V : Type) where
  nodes : List V
  deps : V → List V
  directDeps : V → List V
  isVertex : V → Bool

/-- `Run.isDAG` on a graph over a finite vertex universe. -/
def isDAG {V : Type} [DecidableEq V] [Fintype V] (g : RunGraph V) : Bool :=
  dagLoop g.deps (Fintype.card V + 1) (fun _ => DagCheckState.UNVISITED) g.nodes

/-- `Run.validate` after the per-object `validate()` calls: when `isDAG`
fails it calls `object.error(...)` on the vertices.  Modelled from the
spec for the part outside the source: a vertex's `error` emits an `Error`
status, whose handler invokes `Run.error`, which throws — so the error
path triggers exactly when the graph is cyclic and at least one object is
a `CannoliVertex`. -/
def validateTriggersError {V : Type} [DecidableEq V] [Fintype V] (g : RunGraph V) : Bool :=
  !(isDAG g) && g.nodes.any fun v => g.isVertex v

/-- The items whose `execute()` the `start()` seed loop invokes: none when
validation threw, otherwise every object whose `dependencies` list is
empty (modelled from the spec for `execute` itself, which is an external
contract). -/
def startSeeds {V : Type} [DecidableEq V] [Fintype V] (g : RunGraph V) : List V :=
  if validateTriggersError g then []
  else g.nodes.filter fun v => (g.directDeps v).length == 0

/-- The dependency relation reported by `getAllDependencies`: `b` is a
dependency of `a`. -/
def DepStep {V : Type} (deps : V → List V) (a b : V) : Prop :=
  b ∈ deps a

/-- How one `visit` call may change the color map when it returns `true`:
every vertex keeps its color or moves from `UNVISITED` to `VISITED`. -/
def StatesFrame {V : Type} (s s1 : V → DagCheckState) : Prop :=
  ∀ x, s1 x = s x ∨ (s x = DagCheckState.UNVISITED ∧ s1 x = DagCheckState.VISITED)

/-- Invariant: every dependency of a `VISITED` vertex is `VISITED`. -/
def VisitedClosed {V : Type} (deps : V → List V) (s : V → DagCheckState) : Prop :=
  ∀ x, s x = DagCheckState.VISITED → ∀ d ∈ deps x, s d = DagCheckState.VISITED

/-- Invariant: no `VISITED` vertex lies on a dependency cycle. -/
def VisitedAcyclic {V : Type} (deps : V → List V) (s : V → DagCheckState) : Prop :=
  ∀ c, s c = DagCheckState.VISITED → ¬ Relation.TransGen (DepStep deps) c c

/-- Numeric rank of a color, for the monotonicity argument. -/
def rank : DagCheckState → Nat
  | DagCheckState.UNVISITED => 0
  | DagCheckState.VISITING => 1
  | DagCheckState.VISITED => 2

/-- Number of `UNVISITED` vertices, the fuel measure. -/
def countUnvisited {V : Type} [DecidableEq V] [Fintype V] (s : V → DagCheckState) : Nat :=
  (Finset.univ.filter fun x => s x = DagCheckState.UNVISITED).card

/-- What a `visit` call returning `true` guarantees: the frame condition,
the argument ends `VISITED`, both invariants are preserved, and vertices
touched stay inside any dependency-closed set `N` containing the
argument. -/
def VisitTrueProps {V : Type} (deps : V → List V) (N : V → Prop)
    (s s1 : V → DagCheckState) (v : V) : Prop :=
  StatesFrame s s1 ∧ s1 v = DagCheckState.VISITED ∧
  (VisitedClosed deps s → VisitedClosed deps s1) ∧
  (VisitedClosed deps s → VisitedAcyclic deps s → VisitedAcyclic deps s1) ∧
  (N v → (∀ x, s x ≠ DagCheckState.UNVISITED → N x) →
    ∀ x, s1 x ≠ DagCheckState.UNVISITED → N x)

/-- The corresponding guarantees for a whole dependency-list sweep that
returns `true`. -/
def VisitListTrueProps {V : Type} (deps : V → List V) (N : V → Prop)
    (s s1 : V → DagCheckState) (l : List V) : Prop :=
  StatesFrame s s1 ∧ (∀ d ∈ l, s1 d = DagCheckState.VISITED) ∧
  (VisitedClosed deps s → VisitedClosed deps s1) ∧
  (VisitedClosed deps s → VisitedAcyclic deps s → VisitedAcyclic deps s1) ∧
  ((∀ d ∈ l, N d) → (∀ x, s x ≠ DagCheckState.UNVISITED → N x) →
    ∀ x, s1 x ≠ DagCheckState.UNVISITED → N x)

/-- A cyclic graph (`0 ⇄ 1`) none of whose objects is a vertex, plus an
isolated zero-dependency object `2`. -/
def cycGraphNoVertex : RunGraph (Fin 3) :=
  ⟨[0, 1, 2],
   fun v => if v = 0 then [1] else if v = 1 then [0] else [],
   fun v => if v = 0 then [1] else if v = 1 then [0] else [],
   fun _ => false⟩

/-- A cyclic graph (`0 ⇄ 1`) whose objects are all vertices. -/
def cycGraphVertex : RunGraph (Fin 2) :=
  ⟨[0, 1],
   fun v => if v = 0 then [1] else [0],
   fun v => if v = 0 then [1] else [0],
   fun _ => true⟩

/-- A fresh run with an empty graph and empty usage table. -/
def emptyRun : Run :=
  ⟨[], [], false, []⟩

/-- `emptyRun` after one `stop()`. -/
def emptyRunS1 : Run :=
  ⟨[], [], true, [⟨StoppageReason.user, [], 0, none⟩]⟩

/-- `emptyRun` after two `stop()` calls. -/
def emptyRunS2 : Run :=
  ⟨[], [], true, [⟨StoppageReason.user, [], 0, none⟩, ⟨StoppageReason.user, [], 0, none⟩]⟩

/-- A run whose `isStopped` flag is already set. -/
def stoppedRun : Run :=
  ⟨[], [], true, []⟩

/-- `stoppedRun` after one further `stop()`. -/
def stoppedRun1 : Run :=
  ⟨[], [], true, [⟨StoppageReason.user, [], 0, none⟩]⟩

/-- `stoppedRun` after two further `stop()` calls. -/
def stoppedRun2 : Run :=
  ⟨[], [], true, [⟨StoppageReason.user, [], 0, none⟩, ⟨StoppageReason.user, [], 0, none⟩]⟩

/-- `stoppedRun` after one `error("boom")`. -/
def stoppedRun3 : Run :=
  ⟨[], [], true, [⟨StoppageReason.error, [], 0, some "boom"⟩]⟩

/-- A mock request against a model name absent from the price table. -/
def reqUnknown : ChatRequest :=
  ⟨"anthropic-claude", [⟨"user", "hi", none⟩], none⟩

/-- A request whose rendered message text is exactly 400 characters:
`"user: "` (6) + 393 content characters + `" "` (1). -/
def req400 : ChatRequest :=
  ⟨"gpt-3.5-turbo", [⟨"user", String.mk (List.replicate 393 'a'), none⟩], none⟩

/-- The `gpt-4` price-table entry. -/
def gpt4Model : Model :=
  ⟨"gpt-4", 3 / 100000, 6 / 100000⟩

/-- A `gpt-4` usage record with 1000 prompt and 500 completion tokens. -/
def gpt4UsageEx : Usage :=
  ⟨some gpt4Model, ⟨1000, 500, 1, 0⟩⟩

/-- A run holding one `gpt-4` usage entry. -/
def gpt4Run : Run :=
  ⟨[], [("gpt-4", gpt4UsageEx)], false, []⟩

/-- A run in which every object is `Complete` or `Rejected`. -/
def finishedRun : Run :=
  ⟨[CannoliObjectStatus.Complete, CannoliObjectStatus.Rejected], [], false, []⟩

/-- `finishedRun` after the completion check fires. -/
def finishedRun1 : Run :=
  ⟨[CannoliObjectStatus.Complete, CannoliObjectStatus.Rejected], [], true,
    [⟨StoppageReason.complete, [], 0, none⟩]⟩

/-- A request carrying an `enter_choice` function whose `parameters` have
no `choice` property: the mock guard reads `properties.choice.enum` and
throws. -/
def badChoiceReq : ChatRequest :=
  ⟨"gpt-4", [], some [⟨"enter_choice", none, some ⟨"object", [("other", ⟨"string", none⟩)], []⟩⟩]⟩

/-- A request carrying an `enter_choice` function whose `choice` property
has no `enum`: the mock guard reads `enum.length` and throws. -/
def badEnumReq : ChatRequest :=
  ⟨"gpt-4", [], some [⟨"enter_choice", none, some ⟨"object", [("choice", ⟨"string", none⟩)], ["choice"]⟩⟩]⟩

/-- A well-formed choice request built with `createChoiceFunction`. -/
def goodChoiceReq : ChatRequest :=
  ⟨"gpt-4", [⟨"user", "pick", none⟩], some [createChoiceFunction ["yes", "no"]]⟩

/-- Well-formedness of the choice functions of a request, used to state
the amended safety claim: every function named `enter_choice` that has
`parameters` carries a `choice` property with an `enum` array (as every
function built by `createChoiceFunction` does). -/
def wellFormedChoiceFns (request : ChatRequest) : Prop :=
  ∀ fn ∈ request.functions.getD [], fn.name = "enter_choice" →
    ∀ ps, fn.parameters = some ps →
      ∃ sch choices, tblLookup ps.properties "choice" = some sch ∧ sch.enum = some choices

/-- The run state after `reqUnknown` goes through the mock branch: a usage
record keyed by the unknown name whose `model` field is `undefined`.
The rendered text `"user: hi "` has 9 characters, hence the `9 / 4`
estimated prompt tokens. -/
def unknownRun : Run :=
  ⟨[], [("anthropic-claude", ⟨none, ⟨mockPromptTokens reqUnknown, 0, 1, 0⟩⟩)], false, []⟩

/-- The `gpt-4` usage record with its `totalCost` written by
`calculateAllLLMCosts`: `1000 * 0.03/1000 + 500 * 0.06/1000 = 0.06`. -/
def gpt4UsageCosted : Usage :=
  ⟨some gpt4Model, ⟨1000, 500, 1, 3 / 50⟩⟩

/-- `gpt4Run` after `calculateAllLLMCosts`. -/
def gpt4RunCosted : Run :=
  ⟨[], [("gpt-4", gpt4UsageCosted)], false, []⟩

/-- The updated usage table of `gpt4Run`. -/
def gpt4TableCosted : List (String × Usage) :=
  [("gpt-4", gpt4UsageCosted)]

/-- `gpt4Run` after `stop()`. -/
def gpt4RunStopped : Run :=
  ⟨[], [("gpt-4", gpt4UsageCosted)], true,
    [⟨StoppageReason.user, [("gpt-4", gpt4UsageCosted)], 3 / 50, none⟩]⟩

/-! ## Helper lemmas -/

/-- Looking up the key just updated yields the mapped value. -/
theorem tblLookup_update {α : Type} (f : α → α) :
    ∀ (tbl : List (String × α)) (k : String),
      tblLookup (tblUpdate f tbl k) k = (tblLookup tbl k).map f := by
  intro tbl k
  induction tbl with
  | nil => rfl
  | cons kv rest ih =>
    obtain ⟨k1, a⟩ := kv
    by_cases h : k = k1
    · simp [tblUpdate, tblLookup, h]
    · simp [tblUpdate, tblLookup, h, ih]

/-- Appending a fresh entry makes it visible to lookup. -/
theorem tblLookup_append_none {α : Type} (u : α) :
    ∀ (tbl : List (String × α)) (k : String), tblLookup tbl k = none →
      tblLookup (tbl ++ [(k, u)]) k = some u := by
  intro tbl k h
  induction tbl with
  | nil => simp [tblLookup]
  | cons kv rest ih =>
    obtain ⟨k1, a⟩ := kv
    by_cases hk : k = k1
    · simp [tblLookup, hk] at h
    · simp only [tblLookup, List.cons_append, if_neg hk] at h ⊢
      exact ih h

/-- A default-read within bounds returns an element of the list. -/
theorem getD_mem {α : Type} (d : α) :
    ∀ (l : List α) (i : Nat), i < l.length → l.getD i d ∈ l := by
  intro l
  induction l with
  | nil => intro i h; cases h
  | cons a rest ih =>
    intro i h
    cases i with
    | zero => exact List.mem_cons_self a rest
    | succ j =>
      have hj : j < rest.length := Nat.lt_of_succ_lt_succ h
      exact List.mem_cons_of_mem a (ih j hj)

/-- A successful `mapEntries` run maps every entry pointwise. -/
theorem mapEntries_ok_forall (f : (String × Usage) → Except String (String × Usage)) :
    ∀ {l res : List (String × Usage)}, mapEntries f l = Except.ok res →
      List.Forall₂ (fun kv kv1 => f kv = Except.ok kv1) l res := by
  intro l
  induction l with
  | nil =>
    intro res h
    simp only [mapEntries] at h
    cases h
    exact List.Forall₂.nil
  | cons kv rest ih =>
    intro res h
    simp only [mapEntries] at h
    cases hc : f kv with
    | error e => rw [hc] at h; cases h
    | ok kv1 =>
      rw [hc] at h
      cases hr : mapEntries f rest with
      | error e => rw [hr] at h; cases h
      | ok rest1 =>
        rw [hr] at h
        cases h
        exact List.Forall₂.cons hc (ih hr)

/-- Structure of a successful `calculateAllLLMCosts`: the run's own usage
table is replaced by the returned table, and every entry is the pointwise
`costEntry` rewrite of the old one. -/
theorem calculateAllLLMCosts_ok {r r1 : Run} {table : List (String × Usage)}
    (h : calculateAllLLMCosts r = Except.ok (r1, table)) :
    r1 = { r with usage := table } ∧
    List.Forall₂ (fun kv kv1 => costEntry kv = Except.ok kv1) r.usage table := by
  unfold calculateAllLLMCosts at h
  cases hm : mapEntries costEntry r.usage with
  | error e => rw [hm] at h; cases h
  | ok updated =>
    rw [hm] at h
    cases h
    exact ⟨rfl, mapEntries_ok_forall _ hm⟩

/-- Structure of a successful `emitStoppage`: the flag and statuses are
untouched, exactly one notification is appended, and its usage table is
the run's own (updated) usage table. -/
theorem emitStoppage_ok {r r1 : Run} {reason : StoppageReason} {msg : Option String}
    (h : emitStoppage r reason msg = Except.ok r1) :
    r1.isStopped = r.isStopped ∧ r1.statuses = r.statuses ∧
    (∃ tc, r1.stoppages = r.stoppages ++ [⟨reason, r1.usage, tc, msg⟩]) ∧
    List.Forall₂ (fun kv kv1 => costEntry kv = Except.ok kv1) r.usage r1.usage := by
  unfold emitStoppage at h
  cases hc : calculateAllLLMCosts r with
  | error e => rw [hc] at h; cases h
  | ok pair =>
    obtain ⟨ra, table⟩ := pair
    rw [hc] at h
    dsimp only at h
    obtain ⟨hra, hfa⟩ := calculateAllLLMCosts_ok hc
    cases ht : Run.getTotalCost ra with
    | error e => rw [ht] at h; cases h
    | ok tc =>
      rw [ht] at h
      dsimp only at h
      cases h
      subst hra
      exact ⟨rfl, rfl, ⟨tc, rfl⟩, hfa⟩

/-! ## C1 — stoppage idempotence -/

/-- C1 counterexample: on a fresh run, two consecutive `stop()` calls emit
two `user` stoppages — the second call does not emit nothing, because
`stop()` never checks `isStopped`. -/
theorem C1_counterexample :
    Run.stop emptyRun = Except.ok emptyRunS1 ∧
    Run.stop emptyRunS1 = Except.ok emptyRunS2 ∧
    emptyRunS2.stoppages.length = 2 := by
  refine ⟨rfl, rfl, rfl⟩

/-- C1 amended: `stop()` and `error()` set the flag and emit
unconditionally — even on an already-stopped run, two further `stop()`
calls add two notifications and `error()` adds one — while only the
all-objects-finished paths (`objectCompleted` / `objectRejected`) check
`isStopped` before emitting, and emit nothing once it is set. -/
theorem C1_theorem (r r1 r2 r3 : Run) (m : String)
    (hstopped : r.isStopped = true)
    (h1 : Run.stop r = Except.ok r1) (h2 : Run.stop r1 = Except.ok r2)
    (h3 : Run.error r m = Except.ok r3) :
    r2.stoppages.length = r.stoppages.length + 2 ∧
    r3.stoppages.length = r.stoppages.length + 1 ∧
    Run.objectCompleted r = Except.ok r ∧
    Run.objectRejected r = Except.ok r := by
  obtain ⟨-, -, ⟨tc1, hs1⟩, -⟩ := emitStoppage_ok h1
  obtain ⟨-, -, ⟨tc2, hs2⟩, -⟩ := emitStoppage_ok h2
  obtain ⟨-, -, ⟨tc3, hs3⟩, -⟩ := emitStoppage_ok h3
  refine ⟨?_, ?_, ?_, ?_⟩
  · simp [hs2, hs1, List.length_append]
  · simp [hs3, List.length_append]
  · simp [Run.objectCompleted, hstopped]
  · simp [Run.objectRejected, hstopped]

/-- C1 witness: the amended statement at a concrete already-stopped run. -/
theorem C1_witness :
    stoppedRun.isStopped = true ∧
    Run.stop stoppedRun = Except.ok stoppedRun1 ∧
    Run.stop stoppedRun1 = Except.ok stoppedRun2 ∧
    Run.error stoppedRun "boom" = Except.ok stoppedRun3 ∧
    (stoppedRun2.stoppages.length = stoppedRun.stoppages.length + 2 ∧
     stoppedRun3.stoppages.length = stoppedRun.stoppages.length + 1 ∧
     Run.objectCompleted stoppedRun = Except.ok stoppedRun ∧
     Run.objectRejected stoppedRun = Except.ok stoppedRun) :=
  ⟨rfl, rfl, rfl, rfl,
    C1_theorem stoppedRun stoppedRun1 stoppedRun2 stoppedRun3 "boom" rfl rfl rfl rfl⟩

/-! ## C4 — termination check on Complete / Rejected -/

/-- C4: on a `Complete` (or `Rejected`) event with every object finished
and the run not yet stopped, the orchestrator sets `isStopped` and emits
one `complete`-reason stoppage; `objectRejected` behaves identically, a
`Rejected` item counts as finished, and any `Error` status item prevents
the all-finished verdict. -/
theorem C4_theorem (r r1 : Run)
    (hfin : allObjectsFinished r.statuses = true) (hrun : r.isStopped = false)
    (hok : Run.objectCompleted r = Except.ok r1) :
    r1.isStopped = true ∧
    (∃ tc, r1.stoppages = r.stoppages ++ [⟨StoppageReason.complete, r1.usage, tc, none⟩]) ∧
    Run.objectRejected r = Except.ok r1 ∧
    allObjectsFinished [CannoliObjectStatus.Complete, CannoliObjectStatus.Rejected] = true ∧
    (∀ l : List CannoliObjectStatus, CannoliObjectStatus.Error ∈ l →
      allObjectsFinished l = false) := by
  have hcond : (allObjectsFinished r.statuses && !r.isStopped) = true := by
    simp [hfin, hrun]
  have hok2 : emitStoppage { r with isStopped := true } StoppageReason.complete none =
      Except.ok r1 := by
    simpa [Run.objectCompleted, hcond] using hok
  obtain ⟨hstop, -, ⟨tc, hs⟩, -⟩ := emitStoppage_ok hok2
  refine ⟨hstop, ⟨tc, hs⟩, ?_, by decide, ?_⟩
  · simpa [Run.objectRejected, hcond] using hok2
  · intro l hl
    simp only [allObjectsFinished, List.all_eq_false]
    exact ⟨CannoliObjectStatus.Error, hl, by decide⟩

/-- C4 witness: a concrete run with one `Complete` and one `Rejected`
object fires the completion path. -/
theorem C4_witness :
    allObjectsFinished finishedRun.statuses = true ∧
    finishedRun.isStopped = false ∧
    Run.objectCompleted finishedRun = Except.ok finishedRun1 ∧
    (finishedRun1.isStopped = true ∧
     (∃ tc, finishedRun1.stoppages =
        finishedRun.stoppages ++ [⟨StoppageReason.complete, finishedRun1.usage, tc, none⟩]) ∧
     Run.objectRejected finishedRun = Except.ok finishedRun1 ∧
     allObjectsFinished [CannoliObjectStatus.Complete, CannoliObjectStatus.Rejected] = true ∧
     (∀ l : List CannoliObjectStatus, CannoliObjectStatus.Error ∈ l →
       allObjectsFinished l = false)) :=
  ⟨rfl, rfl, rfl, C4_theorem finishedRun finishedRun1 rfl rfl rfl⟩

/-! ## C7 — per-model cost computation -/

/-- C7: `calculateLLMCostForModel` returns
`promptTokens * promptTokenPrice + completionTokens * completionTokenPrice`
for any record with a known model, ignores the stored `totalCost` field
(recomputed, never cached), and yields `0.03 + 0.03 = 0.06` on the `gpt-4`
table entry with 1000 prompt and 500 completion tokens. -/
theorem C7_theorem (u : Usage) (m : Model) (hm : u.model = some m) (tc : ℚ) :
    calculateLLMCostForModel u =
      Except.ok (u.modelUsage.promptTokens * m.promptTokenPrice +
        u.modelUsage.completionTokens * m.completionTokenPrice) ∧
    calculateLLMCostForModel { u with modelUsage := { u.modelUsage with totalCost := tc } } =
      calculateLLMCostForModel u ∧
    calculateLLMCostForModel gpt4UsageEx = Except.ok (6 / 100) := by
  refine ⟨?_, ?_, ?_⟩
  · simp only [calculateLLMCostForModel, hm]
    congr 1
    ring
  · simp [calculateLLMCostForModel, hm]
  · dsimp only [gpt4UsageEx, gpt4Model, calculateLLMCostForModel]
    norm_num

/-- C7 witness: the formula at the concrete `gpt-4` record. -/
theorem C7_witness :
    gpt4UsageEx.model = some gpt4Model ∧
    (calculateLLMCostForModel gpt4UsageEx =
      Except.ok (gpt4UsageEx.modelUsage.promptTokens * gpt4Model.promptTokenPrice +
        gpt4UsageEx.modelUsage.completionTokens * gpt4Model.completionTokenPrice) ∧
     calculateLLMCostForModel
        { gpt4UsageEx with modelUsage := { gpt4UsageEx.modelUsage with totalCost := 7 } } =
       calculateLLMCostForModel gpt4UsageEx ∧
     calculateLLMCostForModel gpt4UsageEx = Except.ok (6 / 100)) :=
  ⟨rfl, C7_theorem gpt4UsageEx gpt4Model rfl 7⟩

/-! ## C5 — concurrency limiter -/

/-- The limiter never exceeds its slot count, and the slot count is
fixed for the run's lifetime. -/
theorem limRun_bounded :
    ∀ (evs : List LimEvent) (s : LimState), s.active ≤ s.limit →
      (limRun s evs).active ≤ s.limit ∧ (limRun s evs).limit = s.limit := by
  intro evs
  induction evs with
  | nil => intro s h; exact ⟨h, rfl⟩
  | cons e es ih =>
    intro s h
    have hstep : (limStep s e).active ≤ s.limit ∧ (limStep s e).limit = s.limit := by
      cases e with
      | submit id =>
        by_cases hc : s.active < s.limit
        · simp only [limStep, if_pos hc]
          exact ⟨hc, trivial⟩
        · simp only [limStep, if_neg hc]
          exact ⟨h, trivial⟩
      | complete =>
        cases hq : s.queue with
        | nil =>
          simp only [limStep, hq]
          exact ⟨Nat.le_trans (Nat.sub_le _ _) h, trivial⟩
        | cons hh tt =>
          simp only [limStep, hq]
          exact ⟨h, trivial⟩
    obtain ⟨h1, h2⟩ := hstep
    have hrec := ih (limStep s e) (by rw [h2]; exact h1)
    rw [h2] at hrec
    simp only [limRun]
    exact hrec

/-- C5: the gate is constructed with `llmLimit ?? 10` (default 10); across
any event sequence at most `n` tasks are active at once; a submission
finding all slots busy queues at the tail (FIFO) and a completion admits
the queue head; and with 11 simultaneous submissions against the default
limit of 10, tasks 0–9 start, task 10 waits, and it starts exactly after
one completion.  (The limiter itself is `p-limit`, modelled from the
spec.) -/
theorem C5_theorem (n : Nat) (evs : List LimEvent) (s : LimState) (id hid : Nat)
    (t : List Nat) (hcap : s.limit ≤ s.active) (hq : s.queue = hid :: t) :
    mkLlmLimit none = 10 ∧
    mkLlmLimit (some n) = n ∧
    (limRun (limInit n) evs).active ≤ n ∧
    limStep s (LimEvent.submit id) = { s with queue := s.queue ++ [id] } ∧
    limStep s LimEvent.complete = { s with queue := t, started := s.started ++ [hid] } ∧
    (limRun (limInit 10) ((List.range 11).map LimEvent.submit)).started = List.range 10 ∧
    (limRun (limInit 10) ((List.range 11).map LimEvent.submit)).queue = [10] ∧
    (limRun (limInit 10) ((List.range 11).map LimEvent.submit ++ [LimEvent.complete])).started =
      List.range 11 := by
  refine ⟨rfl, rfl, ?_, ?_, ?_, by decide, by decide, by decide⟩
  · exact (limRun_bounded evs (limInit n) (by simp [limInit])).1
  · simp [limStep, Nat.not_lt.mpr hcap]
  · simp [limStep, hq]

/-- C5 witness: the hypothesis-carrying conjuncts at a concrete saturated
limiter state. -/
theorem C5_witness :
    ((⟨2, 2, [5], [0, 1]⟩ : LimState).limit ≤ (⟨2, 2, [5], [0, 1]⟩ : LimState).active) ∧
    ((⟨2, 2, [5], [0, 1]⟩ : LimState).queue = 5 :: []) ∧
    limStep ⟨2, 2, [5], [0, 1]⟩ (LimEvent.submit 7) = ⟨2, 2, [5, 7], [0, 1]⟩ ∧
    limStep ⟨2, 2, [5], [0, 1]⟩ LimEvent.complete = ⟨2, 2, [], [0, 1, 5]⟩ := by
  have h := C5_theorem 3 [] ⟨2, 2, [5], [0, 1]⟩ 7 5 [] (by decide) rfl
  exact ⟨by decide, rfl, h.2.2.2.1, h.2.2.2.2.1⟩

/-! ## C8 — mock-mode token accounting -/

/-- C8: the mock branch adds `textMessages.length / 4` estimated prompt
tokens (and one API call) to the entry of the request's model — creating
the entry if absent — and a request whose rendered message text is 400
characters long adds exactly 100. -/
theorem C8_theorem (r : Run) (request : ChatRequest) (rand : ℚ) :
    mockPromptTokens request = ((mockTextMessages request.messages).length : ℚ) / 4 ∧
    tblLookup ((r.mockBranch request rand).1).usage request.model =
      some (match tblLookup r.usage request.model with
        | none => ⟨modelInfo request.model, ⟨mockPromptTokens request, 0, 1, 0⟩⟩
        | some u => ⟨u.model,
            ⟨u.modelUsage.promptTokens + mockPromptTokens request,
             u.modelUsage.completionTokens, u.modelUsage.apiCalls + 1,
             u.modelUsage.totalCost⟩⟩) ∧
    mockPromptTokens req400 = 100 := by
  refine ⟨rfl, ?_, ?_⟩
  · dsimp only [Run.mockBranch, Run.recordMockUsage]
    cases hl : tblLookup r.usage request.model with
    | none =>
      dsimp only
      rw [tblLookup_update, tblLookup_append_none _ _ _ hl]
      simp
    | some u =>
      dsimp only
      rw [tblLookup_update, hl]
      simp
  · have hm : mockTextMessages req400.messages =
        "" ++ ("user" ++ ": " ++ String.mk (List.replicate 393 'a') ++ " ") := rfl
    have h393 : (String.mk (List.replicate 393 'a')).length = 393 := by
      rw [show (String.mk (List.replicate 393 'a')).length =
        (List.replicate 393 'a').length from rfl, List.length_replicate]
    have hlen : (mockTextMessages req400.messages).length = 400 := by
      rw [hm]
      simp only [String.length_append, h393, show "user".length = 4 from rfl,
        show ": ".length = 2 from rfl, show " ".length = 1 from rfl,
        show "".length = 0 from rfl]
    unfold mockPromptTokens
    rw [hlen]
    norm_num

/-! ## C2 — unknown model name -/

/-- C2 counterexample: a mock call against the unknown model
`anthropic-claude` stores a record whose `model` is `undefined`, after
which the very first stoppage attempt throws a `TypeError` inside the cost
computation (it does not default to zero), and on the real path the
unknown-model usage recording throws before storing anything. -/
theorem C2_counterexample :
    mockPromptTokens reqUnknown = 9 / 4 ∧
    (emptyRun.mockBranch reqUnknown 0).1 = unknownRun ∧
    Run.stop unknownRun =
      Except.error "TypeError: Cannot read properties of undefined (reading promptTokenPrice)" ∧
    Run.recordRealUsage emptyRun "anthropic-claude" ⟨10, 5⟩ =
      Except.error "TypeError: Cannot read properties of undefined (reading name)" := by
  refine ⟨?_, ?_, rfl, rfl⟩
  · have h9 : (mockTextMessages reqUnknown.messages).length = 9 := rfl
    unfold mockPromptTokens
    rw [h9]
    norm_num
  · simp [Run.mockBranch, Run.recordMockUsage, emptyRun, unknownRun, reqUnknown,
      tblLookup, tblUpdate, modelInfo]

/-- C2 amended: for an unknown model name, the mock path does store a
usage record with an absent model and the call itself succeeds, but cost
computation for such an entry throws instead of defaulting to
zero/undefined; on the real path the price-table lookup throws inside the
`try`, so no usage record is stored and the response is replaced by an
error value (the call resolves, the message is lost). -/
theorem C2_theorem (modelName : String) (hm : modelInfo modelName = none)
    (r : Run) (hfresh : tblLookup r.usage modelName = none)
    (request : ChatRequest) (hreq : request.model = modelName) (rand : ℚ)
    (u : Usage) (hu : u.model = none) (au : ApiUsage) (data : ApiResponse)
    (hd : data.usage = some au) :
    tblLookup ((r.mockBranch request rand).1).usage modelName =
      some ⟨none, ⟨mockPromptTokens request, 0, 1, 0⟩⟩ ∧
    calculateLLMCostForModel u =
      Except.error "TypeError: Cannot read properties of undefined (reading promptTokenPrice)" ∧
    Run.recordRealUsage r modelName au =
      Except.error "TypeError: Cannot read properties of undefined (reading name)" ∧
    r.realBranch request (Except.ok data) =
      (r, Except.ok (Sum.inr "TypeError: Cannot read properties of undefined (reading name)")) := by
  subst hreq
  refine ⟨?_, ?_, ?_, ?_⟩
  · dsimp only [Run.mockBranch, Run.recordMockUsage]
    rw [hfresh]
    dsimp only
    rw [tblLookup_update, tblLookup_append_none _ _ _ hfresh]
    simp [hm]
  · simp [calculateLLMCostForModel, hu]
  · simp [Run.recordRealUsage, hm]
  · dsimp only [Run.realBranch]
    rw [hd]
    dsimp only
    rw [show Run.recordRealUsage r request.model au =
      Except.error "TypeError: Cannot read properties of undefined (reading name)" by
        simp [Run.recordRealUsage, hm]]

/-- C2 witness: the amended statement at the concrete unknown model. -/
theorem C2_witness :
    modelInfo "anthropic-claude" = none ∧
    tblLookup emptyRun.usage "anthropic-claude" = none ∧
    reqUnknown.model = "anthropic-claude" ∧
    (tblLookup ((emptyRun.mockBranch reqUnknown 0).1).usage "anthropic-claude" =
      some ⟨none, ⟨mockPromptTokens reqUnknown, 0, 1, 0⟩⟩ ∧
     calculateLLMCostForModel ⟨none, ⟨1, 1, 1, 0⟩⟩ =
       Except.error "TypeError: Cannot read properties of undefined (reading promptTokenPrice)" ∧
     Run.recordRealUsage emptyRun "anthropic-claude" ⟨10, 5⟩ =
       Except.error "TypeError: Cannot read properties of undefined (reading name)" ∧
     emptyRun.realBranch reqUnknown (Except.ok ⟨some ⟨10, 5⟩, []⟩) =
       (emptyRun,
        Except.ok (Sum.inr "TypeError: Cannot read properties of undefined (reading name)"))) :=
  ⟨rfl, rfl, rfl,
    C2_theorem "anthropic-claude" rfl emptyRun rfl reqUnknown rfl 0
      ⟨none, ⟨1, 1, 1, 0⟩⟩ rfl ⟨10, 5⟩ ⟨some ⟨10, 5⟩, []⟩ rfl⟩

/-! ## C9 — in-place cost rewrite and the emitted table -/

/-- C9: a successful `calculateAllLLMCosts` rewrites exactly the
`totalCost` field of every entry of the run's own usage table (model and
counters unchanged, all other run fields unchanged) and returns that very
table, and the stoppage emitted by `stop()` carries the run's updated
usage table itself. -/
theorem C9_theorem (r ra : Run) (table : List (String × Usage))
    (h : calculateAllLLMCosts r = Except.ok (ra, table)) (rb : Run)
    (h2 : Run.stop r = Except.ok rb) :
    ra.usage = table ∧ ra.statuses = r.statuses ∧ ra.isStopped = r.isStopped ∧
    ra.stoppages = r.stoppages ∧
    List.Forall₂ (fun kv kv1 =>
      (kv1 : String × Usage).1 = (kv : String × Usage).1 ∧
      kv1.2.model = kv.2.model ∧
      kv1.2.modelUsage.promptTokens = kv.2.modelUsage.promptTokens ∧
      kv1.2.modelUsage.completionTokens = kv.2.modelUsage.completionTokens ∧
      kv1.2.modelUsage.apiCalls = kv.2.modelUsage.apiCalls ∧
      calculateLLMCostForModel kv.2 = Except.ok kv1.2.modelUsage.totalCost) r.usage table ∧
    (∃ tc, rb.stoppages = r.stoppages ++ [⟨StoppageReason.user, rb.usage, tc, none⟩]) := by
  obtain ⟨hra, hfa⟩ := calculateAllLLMCosts_ok h
  obtain ⟨-, -, hst, -⟩ := emitStoppage_ok h2
  subst hra
  refine ⟨rfl, rfl, rfl, rfl, ?_, hst⟩
  refine List.Forall₂.imp ?_ hfa
  intro kv kv1 hkv
  unfold costEntry at hkv
  cases hc : calculateLLMCostForModel kv.2 with
  | error e => rw [hc] at hkv; cases hkv
  | ok c =>
    rw [hc] at hkv
    dsimp only at hkv
    cases hkv
    exact ⟨rfl, rfl, rfl, rfl, rfl, rfl⟩

/-- C9 witness: the frame and the emitted-table identity at a run with one
`gpt-4` entry. -/
theorem C9_witness :
    calculateAllLLMCosts gpt4Run = Except.ok (gpt4RunCosted, gpt4TableCosted) ∧
    Run.stop gpt4Run = Except.ok gpt4RunStopped ∧
    gpt4RunCosted.usage = gpt4TableCosted ∧
    (∃ tc, gpt4RunStopped.stoppages =
      gpt4Run.stoppages ++ [⟨StoppageReason.user, gpt4RunStopped.usage, tc, none⟩]) := by
  have hcost : calculateLLMCostForModel
      ⟨some ⟨"gpt-4", 3 / 100000, 6 / 100000⟩, ⟨1000, 500, 1, 0⟩⟩ = Except.ok (3 / 50) := by
    dsimp only [calculateLLMCostForModel]
    norm_num
  have hcost2 : calculateLLMCostForModel
      ⟨some ⟨"gpt-4", 3 / 100000, 6 / 100000⟩, ⟨1000, 500, 1, 3 / 50⟩⟩ =
        Except.ok (3 / 50) := by
    dsimp only [calculateLLMCostForModel]
    norm_num
  have h : calculateAllLLMCosts gpt4Run = Except.ok (gpt4RunCosted, gpt4TableCosted) := by
    simp [calculateAllLLMCosts, mapEntries, costEntry, hcost, gpt4Run, gpt4RunCosted,
      gpt4TableCosted, gpt4UsageCosted, gpt4UsageEx, gpt4Model]
  have h2 : Run.stop gpt4Run = Except.ok gpt4RunStopped := by
    have hall : calculateAllLLMCosts { gpt4Run with isStopped := true } =
        Except.ok ({ gpt4RunCosted with isStopped := true }, gpt4TableCosted) := by
      simp [calculateAllLLMCosts, mapEntries, costEntry, hcost, gpt4Run, gpt4RunCosted,
        gpt4TableCosted, gpt4UsageCosted, gpt4UsageEx, gpt4Model]
    rw [Run.stop, emitStoppage, hall]
    simp [Run.getTotalCost, sumCosts, hcost2, gpt4RunCosted, gpt4TableCosted,
      gpt4RunStopped, gpt4UsageCosted, gpt4Model]
  exact ⟨h, h2, (C9_theorem gpt4Run gpt4RunCosted gpt4TableCosted h gpt4RunStopped h2).1,
    (C9_theorem gpt4Run gpt4RunCosted gpt4TableCosted h gpt4RunStopped h2).2.2.2.2.2⟩

/-! ## C6 — no rejection past the call boundary -/

/-- C6 counterexample: the mock branch is not inside the `try`; a request
whose `enter_choice` function has `parameters` without a `choice` property
makes the guard throw a `TypeError`, which rejects past the `callLLM`
boundary. -/
theorem C6_counterexample :
    (emptyRun.callLLM true true badChoiceReq 0 (Except.error "unused")).2 =
      Except.error "TypeError: Cannot read properties of undefined (reading enum)" :=
  rfl

/-- C6 amended: the real-call branch never throws past the boundary — all
its failures come back as values — and the mock branch never throws
provided every `enter_choice` function's `parameters` carry a `choice`
property with an `enum`; without that the mock branch can throw. -/
theorem C6_theorem (r : Run) (request : ChatRequest) (rand : ℚ)
    (api : Except String ApiResponse) (hwf : wellFormedChoiceFns request) :
    (∃ v, (r.realBranch request api).2 = Except.ok v) ∧
    (∃ v, (r.mockBranch request rand).2 = Except.ok v) := by
  constructor
  · dsimp only [Run.realBranch]
    cases api with
    | error e => exact ⟨Sum.inr e, rfl⟩
    | ok data =>
      dsimp only
      cases hd : data.usage with
      | none => exact ⟨extractResponseMessage data, rfl⟩
      | some au =>
        dsimp only
        cases hrec : r.recordRealUsage request.model au with
        | error e => exact ⟨Sum.inr e, rfl⟩
        | ok r1 => exact ⟨extractResponseMessage data, rfl⟩
  · dsimp only [Run.mockBranch]
    cases hf : findChoiceFn request with
    | none => exact ⟨Sum.inl mockPlaceholder, by simp [mockResponse, hf, Except.map]⟩
    | some fn =>
      have hmem : fn ∈ request.functions.getD [] := List.mem_of_find?_eq_some hf
      have hname : fn.name = "enter_choice" := by
        have := List.find?_some hf
        simpa using this
      cases hp : fn.parameters with
      | none => exact ⟨Sum.inl mockPlaceholder, by simp [mockResponse, hf, hp, Except.map]⟩
      | some ps =>
        obtain ⟨sch, choices, hsch, henum⟩ := hwf fn hmem hname ps hp
        by_cases hlen : 0 < choices.length
        · exact ⟨Sum.inl ⟨"assistant", "Mock response",
            some ⟨"enter_choice",
              mkChoiceArgs (choices.getD ((Int.floor (rand * (choices.length : ℚ))).toNat)
                "undefined")⟩⟩,
            by simp [mockResponse, hf, hp, hsch, henum, hlen, Except.map]⟩
        · exact ⟨Sum.inl mockPlaceholder,
            by simp [mockResponse, hf, hp, hsch, henum, hlen, Except.map]⟩

/-- C6 witness: both branches resolve on a well-formed choice request. -/
theorem C6_witness :
    wellFormedChoiceFns goodChoiceReq ∧
    ((∃ v, (emptyRun.realBranch goodChoiceReq (Except.error "network down")).2 = Except.ok v) ∧
     (∃ v, (emptyRun.mockBranch goodChoiceReq 0).2 = Except.ok v)) := by
  have hwf : wellFormedChoiceFns goodChoiceReq := by
    intro fn hfn hname ps hps
    simp only [goodChoiceReq, createChoiceFunction, Option.getD_some,
      List.mem_singleton] at hfn
    subst hfn
    simp only [createChoiceFunction, Option.some.injEq] at hps
    subst hps
    exact ⟨⟨"string", some ["yes", "no"]⟩, ["yes", "no"], rfl, rfl⟩
  exact ⟨hwf, C6_theorem emptyRun goodChoiceReq 0 (Except.error "network down") hwf⟩

/-! ## C10 — mock choice synthesis -/

/-- C10 counterexample: a request whose `enter_choice` function has a
`choice` property without an `enum` is not of the structured-choice shape,
yet the mock does not return the fixed placeholder — it throws. -/
theorem C10_counterexample :
    findChoiceFn badEnumReq =
      some ⟨"enter_choice", none, some ⟨"object", [("choice", ⟨"string", none⟩)], ["choice"]⟩⟩ ∧
    mockResponse badEnumReq 0 =
      Except.error "TypeError: Cannot read properties of undefined (reading length)" :=
  ⟨rfl, rfl⟩

/-- C10 amended: when the request carries an `enter_choice` function whose
`choice` parameter has a non-empty enum, the mock returns an assistant
message whose `function_call` is named `enter_choice` with a choice drawn
from that enum for every value of the random draw in `[0, 1)`; requests
with no `enter_choice` function, or one without `parameters`, or with an
empty enum, get the fixed placeholder — but a malformed `enter_choice`
function (no `choice` property or no `enum`) makes the mock throw
instead. -/
theorem C10_theorem (request : ChatRequest) (rand : ℚ) (fn : ChatFn) (ps : FnParameters)
    (sch : PropSchema) (choices : List String)
    (hfind : findChoiceFn request = some fn) (hps : fn.parameters = some ps)
    (hsch : tblLookup ps.properties "choice" = some sch) (henum : sch.enum = some choices)
    (hne : choices ≠ []) (h0 : 0 ≤ rand) (h1 : rand < 1) :
    (∃ c, c ∈ choices ∧
      mockResponse request rand =
        Except.ok ⟨"assistant", "Mock response", some ⟨"enter_choice", mkChoiceArgs c⟩⟩) ∧
    (∀ request2 : ChatRequest, findChoiceFn request2 = none →
      mockResponse request2 rand = Except.ok mockPlaceholder) ∧
    (∀ request2 fn2, findChoiceFn request2 = some fn2 → fn2.parameters = none →
      mockResponse request2 rand = Except.ok mockPlaceholder) ∧
    (∀ request2 fn2 ps2 sch2, findChoiceFn request2 = some fn2 →
      fn2.parameters = some ps2 → tblLookup ps2.properties "choice" = some sch2 →
      sch2.enum = some [] → mockResponse request2 rand = Except.ok mockPlaceholder) := by
  have hlen : 0 < choices.length := List.length_pos.mpr hne
  have hn : (0 : ℚ) < (choices.length : ℚ) := by exact_mod_cast hlen
  have hflo : 0 ≤ Int.floor (rand * (choices.length : ℚ)) :=
    Int.floor_nonneg.mpr (mul_nonneg h0 (le_of_lt hn))
  have hfl : Int.floor (rand * (choices.length : ℚ)) < (choices.length : ℤ) := by
    rw [Int.floor_lt]
    push_cast
    calc rand * (choices.length : ℚ) < 1 * (choices.length : ℚ) :=
          mul_lt_mul_of_pos_right h1 hn
      _ = (choices.length : ℚ) := one_mul _
  have hidx : (Int.floor (rand * (choices.length : ℚ))).toNat < choices.length := by
    omega
  refine ⟨⟨_, getD_mem "undefined" choices _ hidx, ?_⟩, ?_, ?_, ?_⟩
  · simp [mockResponse, hfind, hps, hsch, henum, hlen]
  · intro request2 hf2
    simp [mockResponse, hf2]
  · intro request2 fn2 hf2 hp2
    simp [mockResponse, hf2, hp2]
  · intro request2 fn2 ps2 sch2 hf2 hp2 hsch2 henum2
    simp [mockResponse, hf2, hp2, hsch2, henum2]

/-- C10 witness: the structured-choice shape at a concrete request built
by `createChoiceFunction` and the draw `1/2`. -/
theorem C10_witness :
    findChoiceFn goodChoiceReq = some (createChoiceFunction ["yes", "no"]) ∧
    (createChoiceFunction ["yes", "no"]).parameters =
      some ⟨"object", [("choice", ⟨"string", some ["yes", "no"]⟩)], ["choice"]⟩ ∧
    ((0 : ℚ) ≤ 1 / 2) ∧ ((1 / 2 : ℚ) < 1) ∧
    (∃ c, c ∈ ["yes", "no"] ∧
      mockResponse goodChoiceReq (1 / 2) =
        Except.ok ⟨"assistant", "Mock response", some ⟨"enter_choice", mkChoiceArgs c⟩⟩) :=
  ⟨rfl, rfl, by norm_num, by norm_num,
    (C10_theorem goodChoiceReq (1 / 2) (createChoiceFunction ["yes", "no"])
      ⟨"object", [("choice", ⟨"string", some ["yes", "no"]⟩)], ["choice"]⟩
      ⟨"string", some ["yes", "no"]⟩ ["yes", "no"]
      rfl rfl rfl rfl (by decide) (by norm_num) (by norm_num)).1⟩

/-! ## C3 — DAG validation -/

/-- A color that is neither `VISITING` nor `VISITED` is `UNVISITED` (in
the source, `states.get` returning `undefined` behaves the same way). -/
theorem dagState_eq_unvisited {st : DagCheckState}
    (h1 : ¬ st = DagCheckState.VISITING) (h2 : ¬ st = DagCheckState.VISITED) :
    st = DagCheckState.UNVISITED := by
  cases st <;> simp_all

/-- Ranks are bounded by two. -/
theorem rank_le_two (st : DagCheckState) : rank st ≤ 2 := by
  cases st <;> simp [rank]

/-- Rank zero characterizes `UNVISITED`. -/
theorem rank_eq_zero {st : DagCheckState} (h : rank st = 0) :
    st = DagCheckState.UNVISITED := by
  cases st <;> simp_all [rank]

/-- Reading back the key just written. -/
theorem setState_self {V : Type} [DecidableEq V] (s : V → DagCheckState) (v : V)
    (st : DagCheckState) : setState s v st v = st := by
  simp [setState]

/-- Reading any other key. -/
theorem setState_ne {V : Type} [DecidableEq V] (s : V → DagCheckState) (v x : V)
    (st : DagCheckState) (h : x ≠ v) : setState s v st x = s x := by
  simp [setState, h]

/-- The frame relation is reflexive. -/
theorem statesFrame_refl {V : Type} (s : V → DagCheckState) : StatesFrame s s :=
  fun _ => Or.inl rfl

/-- The frame relation composes. -/
theorem statesFrame_trans {V : Type} {s t u : V → DagCheckState}
    (h1 : StatesFrame s t) (h2 : StatesFrame t u) : StatesFrame s u := by
  intro x
  rcases h2 x with he2 | ⟨ht2, hu2⟩
  · rcases h1 x with he1 | ⟨hs1, ht1⟩
    · exact Or.inl (he2.trans he1)
    · exact Or.inr ⟨hs1, he2.trans ht1⟩
  · rcases h1 x with he1 | ⟨hs1, ht1⟩
    · exact Or.inr ⟨he1.symm.trans ht2, hu2⟩
    · exact absurd (ht1.symm.trans ht2) (by simp)

/-- Unfolding `visit` at fuel zero. -/
theorem visit_zero {V : Type} [DecidableEq V] (deps : V → List V)
    (s : V → DagCheckState) (v : V) : visit deps 0 s v = none :=
  rfl

/-- Unfolding `visit` at positive fuel. -/
theorem visit_succ {V : Type} [DecidableEq V] (deps : V → List V) (f : Nat)
    (s : V → DagCheckState) (obj : V) :
    visit deps (f + 1) s obj =
      if s obj = DagCheckState.VISITING then some (s, false)
      else if s obj = DagCheckState.VISITED then some (s, true)
      else
        match visitList (visit deps f) (setState s obj DagCheckState.VISITING) (deps obj) with
        | none => none
        | some (s1, false) => some (s1, false)
        | some (s1, true) => some (setState s1 obj DagCheckState.VISITED, true) :=
  rfl

/-- A dependency sweep only raises ranks, given that each step does. -/
theorem visitList_mono {V : Type}
    (step : (V → DagCheckState) → V → Option ((V → DagCheckState) × Bool))
    (hstep : ∀ s v s1 b, step s v = some (s1, b) → ∀ x, rank (s x) ≤ rank (s1 x)) :
    ∀ (l : List V) (s s1 : V → DagCheckState) (b : Bool),
      visitList step s l = some (s1, b) → ∀ x, rank (s x) ≤ rank (s1 x) := by
  intro l
  induction l with
  | nil =>
    intro s s1 b h x
    simp only [visitList] at h
    cases h
    exact le_refl _
  | cons d rest ih =>
    intro s s1 b h x
    simp only [visitList] at h
    cases hs : step s d with
    | none => rw [hs] at h; cases h
    | some p =>
      obtain ⟨t, bd⟩ := p
      rw [hs] at h
      cases bd with
      | false =>
        dsimp only at h
        cases h
        exact hstep s d s1 false hs x
      | true =>
        dsimp only at h
        exact le_trans (hstep s d t true hs x) (ih t s1 b h x)

/-- `visit` only raises ranks: `UNVISITED → VISITING → VISITED`. -/
theorem visit_mono {V : Type} [DecidableEq V] (deps : V → List V) :
    ∀ (f : Nat) (s : V → DagCheckState) (v : V) (s1 : V → DagCheckState) (b : Bool),
      visit deps f s v = some (s1, b) → ∀ x, rank (s x) ≤ rank (s1 x) := by
  intro f
  induction f with
  | zero =>
    intro s v s1 b h x
    rw [visit_zero] at h
    cases h
  | succ f ih =>
    intro s v s1 b h x
    rw [visit_succ] at h
    by_cases h1 : s v = DagCheckState.VISITING
    · rw [if_pos h1] at h; cases h; exact le_refl _
    · rw [if_neg h1] at h
      by_cases h2 : s v = DagCheckState.VISITED
      · rw [if_pos h2] at h; cases h; exact le_refl _
      · rw [if_neg h2] at h
        have hvU : s v = DagCheckState.UNVISITED := dagState_eq_unvisited h1 h2
        have hstart : ∀ y, rank (s y) ≤ rank (setState s v DagCheckState.VISITING y) := by
          intro y
          by_cases hy : y = v
          · subst hy
            rw [setState_self, hvU]
            simp [rank]
          · rw [setState_ne _ _ _ _ hy]
        cases hvl : visitList (visit deps f)
            (setState s v DagCheckState.VISITING) (deps v) with
        | none => rw [hvl] at h; cases h
        | some p =>
          obtain ⟨t, bl⟩ := p
          rw [hvl] at h
          have hmonoL := visitList_mono (visit deps f)
            (fun s' v' s1' b' hh x' => ih s' v' s1' b' hh x')
            (deps v) (setState s v DagCheckState.VISITING) t bl hvl
          cases bl with
          | false =>
            dsimp only at h
            cases h
            exact le_trans (hstart x) (hmonoL x)
          | true =>
            dsimp only at h
            cases h
            have hlast : rank (t x) ≤ rank (setState t v DagCheckState.VISITED x) := by
              by_cases hy : x = v
              · subst hy
                rw [setState_self]
                exact rank_le_two _
              · rw [setState_ne _ _ _ _ hy]
            exact le_trans (le_trans (hstart x) (hmonoL x)) hlast

/-- Rank monotonicity can only shrink the `UNVISITED` count. -/
theorem countUnvisited_le_of_mono {V : Type} [DecidableEq V] [Fintype V]
    {s s1 : V → DagCheckState} (h : ∀ x, rank (s x) ≤ rank (s1 x)) :
    countUnvisited s1 ≤ countUnvisited s := by
  apply Finset.card_le_card
  intro x hx
  simp only [Finset.mem_filter, Finset.mem_univ, true_and] at hx ⊢
  have h0 : rank (s1 x) = 0 := by rw [hx]; rfl
  exact rank_eq_zero (Nat.le_zero.mp (h0 ▸ h x))

/-- Marking an `UNVISITED` vertex `VISITING` shrinks the count by one. -/
theorem countUnvisited_setVisiting {V : Type} [DecidableEq V] [Fintype V]
    {s : V → DagCheckState} {v : V} (h : s v = DagCheckState.UNVISITED) :
    countUnvisited (setState s v DagCheckState.VISITING) + 1 = countUnvisited s := by
  have hv : v ∈ Finset.univ.filter fun x => s x = DagCheckState.UNVISITED := by
    simp [h]
  have hset : (Finset.univ.filter fun x =>
      setState s v DagCheckState.VISITING x = DagCheckState.UNVISITED) =
      (Finset.univ.filter fun x => s x = DagCheckState.UNVISITED).erase v := by
    ext x
    simp only [Finset.mem_filter, Finset.mem_erase, Finset.mem_univ, true_and]
    by_cases hx : x = v
    · subst hx
      simp [setState_self]
    · simp [setState_ne _ _ _ _ hx, hx]
  rw [countUnvisited, countUnvisited, hset, Finset.card_erase_of_mem hv]
  exact Nat.sub_add_cancel (Finset.card_pos.mpr ⟨v, hv⟩)

/-- The count never exceeds the size of the vertex universe. -/
theorem countUnvisited_le_card {V : Type} [DecidableEq V] [Fintype V]
    (s : V → DagCheckState) : countUnvisited s ≤ Fintype.card V :=
  le_trans (Finset.card_filter_le _ _) (le_of_eq Finset.card_univ)

/-- A dependency sweep succeeds whenever each step succeeds under the
count bound and steps never raise the count. -/
theorem visitList_isSome {V : Type} [DecidableEq V] [Fintype V]
    (step : (V → DagCheckState) → V → Option ((V → DagCheckState) × Bool)) (B : Nat)
    (hsome : ∀ s v, countUnvisited s ≤ B → (step s v).isSome = true)
    (hmono : ∀ s v s1 b, step s v = some (s1, b) → countUnvisited s1 ≤ countUnvisited s) :
    ∀ (l : List V) (s : V → DagCheckState), countUnvisited s ≤ B →
      (visitList step s l).isSome = true := by
  intro l
  induction l with
  | nil => intro s h; simp [visitList]
  | cons d rest ih =>
    intro s h
    simp only [visitList]
    cases hs : step s d with
    | none =>
      have hh := hsome s d h
      rw [hs] at hh
      cases hh
    | some p =>
      obtain ⟨t, bd⟩ := p
      cases bd with
      | false => simp
      | true =>
        dsimp only
        exact ih t (le_trans (hmono s d t true hs) h)

/-- With fuel strictly above the `UNVISITED` count, `visit` never runs
out: the source's unbounded recursion always terminates with an answer. -/
theorem visit_isSome {V : Type} [DecidableEq V] [Fintype V] (deps : V → List V) :
    ∀ (f : Nat) (s : V → DagCheckState) (v : V), countUnvisited s < f →
      (visit deps f s v).isSome = true := by
  intro f
  induction f with
  | zero => intro s v h; exact absurd h (Nat.not_lt_zero _)
  | succ f ih =>
    intro s v h
    rw [visit_succ]
    by_cases h1 : s v = DagCheckState.VISITING
    · rw [if_pos h1]; simp
    · rw [if_neg h1]
      by_cases h2 : s v = DagCheckState.VISITED
      · rw [if_pos h2]; simp
      · rw [if_neg h2]
        have hvU : s v = DagCheckState.UNVISITED := dagState_eq_unvisited h1 h2
        have hc1 := countUnvisited_setVisiting (s := s) (v := v) hvU
        have hBf : countUnvisited (setState s v DagCheckState.VISITING) < f := by
          omega
        have hl := visitList_isSome (visit deps f)
          (countUnvisited (setState s v DagCheckState.VISITING))
          (fun t w ht => ih t w (lt_of_le_of_lt ht hBf))
          (fun t w t1 b htw => countUnvisited_le_of_mono (visit_mono deps f t w t1 b htw))
          (deps v) (setState s v DagCheckState.VISITING) (le_refl _)
        cases hvl : visitList (visit deps f)
            (setState s v DagCheckState.VISITING) (deps v) with
        | none => rw [hvl] at hl; cases hl
        | some p =>
          obtain ⟨t, b⟩ := p
          cases b <;> simp

/-- `VISITED` vertices are closed under reachability when the closure
invariant holds. -/
theorem visited_reach {V : Type} (deps : V → List V) {s : V → DagCheckState}
    (hVC : VisitedClosed deps s) {a b : V} (ha : s a = DagCheckState.VISITED)
    (hab : Relation.ReflTransGen (DepStep deps) a b) : s b = DagCheckState.VISITED := by
  induction hab with
  | refl => exact ha
  | tail hpre hstep ih => exact hVC _ ih _ hstep

/-- Marking an `UNVISITED` vertex `VISITING` preserves the closure
invariant (the `VISITED` set is untouched). -/
theorem visitedClosed_setVisiting {V : Type} [DecidableEq V] {deps : V → List V}
    {s : V → DagCheckState} {v : V} (hvU : s v = DagCheckState.UNVISITED)
    (hc : VisitedClosed deps s) :
    VisitedClosed deps (setState s v DagCheckState.VISITING) := by
  intro x hx d hd
  by_cases hxv : x = v
  · subst hxv
    rw [setState_self] at hx
    cases hx
  · rw [setState_ne _ _ _ _ hxv] at hx
    have hdV := hc x hx d hd
    by_cases hdv : d = v
    · subst hdv
      exact absurd hdV (by rw [hvU]; simp)
    · rw [setState_ne _ _ _ _ hdv]
      exact hdV

/-- Marking a vertex `VISITING` preserves acyclicity of the `VISITED`
set. -/
theorem visitedAcyclic_setVisiting {V : Type} [DecidableEq V] {deps : V → List V}
    {s : V → DagCheckState} {v : V} (ha : VisitedAcyclic deps s) :
    VisitedAcyclic deps (setState s v DagCheckState.VISITING) := by
  intro c hc hcyc
  by_cases hcv : c = v
  · subst hcv
    rw [setState_self] at hc
    cases hc
  · rw [setState_ne _ _ _ _ hcv] at hc
    exact ha c hc hcyc

/-- A dependency sweep returning `true` satisfies the bundled guarantees,
given that each step does. -/
theorem visitList_true_props {V : Type} (deps : V → List V) (N : V → Prop)
    (step : (V → DagCheckState) → V → Option ((V → DagCheckState) × Bool))
    (hstep : ∀ s v s1, step s v = some (s1, true) → VisitTrueProps deps N s s1 v) :
    ∀ (l : List V) (s s1 : V → DagCheckState), visitList step s l = some (s1, true) →
      VisitListTrueProps deps N s s1 l := by
  intro l
  induction l with
  | nil =>
    intro s s1 h
    simp only [visitList] at h
    cases h
    exact ⟨statesFrame_refl s, by simp, fun hc => hc, fun _ ha => ha, fun _ hm => hm⟩
  | cons d rest ih =>
    intro s s1 h
    simp only [visitList] at h
    cases hs : step s d with
    | none => rw [hs] at h; cases h
    | some p =>
      obtain ⟨t, bd⟩ := p
      rw [hs] at h
      cases bd with
      | false => simp at h
      | true =>
        dsimp only at h
        obtain ⟨hF1, hV1, hC1, hA1, hN1⟩ := hstep s d t hs
        obtain ⟨hF2, hV2, hC2, hA2, hN2⟩ := ih t s1 h
        refine ⟨statesFrame_trans hF1 hF2, ?_, fun hc => hC2 (hC1 hc),
          fun hc ha => hA2 (hC1 hc) (hA1 hc ha), ?_⟩
        · intro d' hd'
          rcases List.mem_cons.mp hd' with rfl | hmem
          · rcases hF2 d' with he | ⟨hu, _⟩
            · rw [he]; exact hV1
            · exact absurd (hV1.symm.trans hu) (by simp)
          · exact hV2 d' hmem
        · intro hNd hm
          exact hN2 (fun d' hd' => hNd d' (List.mem_cons_of_mem d hd'))
            (hN1 (hNd d (List.mem_cons_self d rest)) hm)

/-- The main true-case theorem for `visit`: frame, final color, both
invariants, and membership preservation inside any dependency-closed
set. -/
theorem visit_true_props {V : Type} [DecidableEq V] (deps : V → List V) (N : V → Prop)
    (hclosed : ∀ a, N a → ∀ d ∈ deps a, N d) :
    ∀ (f : Nat) (s : V → DagCheckState) (v : V) (s1 : V → DagCheckState),
      visit deps f s v = some (s1, true) → VisitTrueProps deps N s s1 v := by
  intro f
  induction f with
  | zero =>
    intro s v s1 h
    rw [visit_zero] at h
    cases h
  | succ f ih =>
    intro s v s1 h
    rw [visit_succ] at h
    by_cases h1 : s v = DagCheckState.VISITING
    · rw [if_pos h1] at h
      simp at h
    · rw [if_neg h1] at h
      by_cases h2 : s v = DagCheckState.VISITED
      · rw [if_pos h2] at h
        cases h
        exact ⟨statesFrame_refl s, h2, fun hc => hc, fun _ ha => ha, fun _ hm => hm⟩
      · rw [if_neg h2] at h
        have hvU : s v = DagCheckState.UNVISITED := dagState_eq_unvisited h1 h2
        cases hvl : visitList (visit deps f)
            (setState s v DagCheckState.VISITING) (deps v) with
        | none => rw [hvl] at h; cases h
        | some p =>
          obtain ⟨t, bl⟩ := p
          rw [hvl] at h
          cases bl with
          | false => simp at h
          | true =>
            dsimp only at h
            cases h
            obtain ⟨hF, hAllV, hC, hA, hN⟩ := visitList_true_props deps N (visit deps f)
              (fun s' v' s1' h' => ih s' v' s1' h') (deps v)
              (setState s v DagCheckState.VISITING) t hvl
            have htv : t v = DagCheckState.VISITING := by
              rcases hF v with he | ⟨hu, _⟩
              · rw [he, setState_self]
              · rw [setState_self] at hu
                cases hu
            refine ⟨?_, setState_self t v _, ?_, ?_, ?_⟩
            · -- frame from s to the final map
              intro x
              by_cases hxv : x = v
              · subst hxv
                exact Or.inr ⟨hvU, setState_self t x _⟩
              · rw [setState_ne _ _ _ _ hxv]
                rcases hF x with he | ⟨hu, hv2⟩
                · rw [setState_ne _ _ _ _ hxv] at he
                  exact Or.inl he
                · rw [setState_ne _ _ _ _ hxv] at hu
                  exact Or.inr ⟨hu, hv2⟩
            · -- closure invariant
              intro hc
              have hct : VisitedClosed deps t := hC (visitedClosed_setVisiting hvU hc)
              intro x hx d hd
              by_cases hdv : d = v
              · rw [hdv, setState_self]
              · rw [setState_ne _ _ _ _ hdv]
                by_cases hxv : x = v
                · rw [hxv] at hd
                  exact hAllV d hd
                · rw [setState_ne _ _ _ _ hxv] at hx
                  exact hct x hx d hd
            · -- acyclicity of the VISITED set
              intro hc ha
              have hcs := visitedClosed_setVisiting hvU hc
              have hct : VisitedClosed deps t := hC hcs
              have hat : VisitedAcyclic deps t := hA hcs (visitedAcyclic_setVisiting ha)
              intro c hcV hcyc
              by_cases hcv : c = v
              · obtain ⟨d, hvd, hdv⟩ := Relation.TransGen.head'_iff.mp hcyc
                rw [hcv] at hvd hdv
                have hdV : t d = DagCheckState.VISITED := hAllV d hvd
                have hreach := visited_reach deps hct hdV hdv
                exact absurd hreach (by rw [htv]; simp)
              · rw [setState_ne _ _ _ _ hcv] at hcV
                exact hat c hcV hcyc
            · -- membership preservation
              intro hNv hm
              have hm1 : ∀ x, setState s v DagCheckState.VISITING x ≠
                  DagCheckState.UNVISITED → N x := by
                intro x hx
                by_cases hxv : x = v
                · subst hxv; exact hNv
                · rw [setState_ne _ _ _ _ hxv] at hx
                  exact hm x hx
              have hmt := hN (hclosed v hNv) hm1
              intro x hx
              by_cases hxv : x = v
              · subst hxv; exact hNv
              · rw [setState_ne _ _ _ _ hxv] at hx
                exact hmt x hx

/-- If a dependency sweep reports a cycle, there is one: every `VISITING`
vertex has a real dependency path to each listed target, so the vertex
re-encountered while `VISITING` closes a cycle inside `N`. -/
theorem visitList_false_cycle {V : Type} (deps : V → List V) (N : V → Prop)
    (step : (V → DagCheckState) → V → Option ((V → DagCheckState) × Bool))
    (hstepF : ∀ s v s1, step s v = some (s1, false) →
      (∀ x, s x = DagCheckState.VISITING → Relation.TransGen (DepStep deps) x v) →
      N v → (∀ x, s x ≠ DagCheckState.UNVISITED → N x) →
      ∃ c, N c ∧ Relation.TransGen (DepStep deps) c c)
    (hstepT : ∀ s v s1, step s v = some (s1, true) → VisitTrueProps deps N s s1 v) :
    ∀ (l : List V) (s s1 : V → DagCheckState), visitList step s l = some (s1, false) →
      (∀ d ∈ l, N d) →
      (∀ d ∈ l, ∀ x, s x = DagCheckState.VISITING → Relation.TransGen (DepStep deps) x d) →
      (∀ x, s x ≠ DagCheckState.UNVISITED → N x) →
      ∃ c, N c ∧ Relation.TransGen (DepStep deps) c c := by
  intro l
  induction l with
  | nil =>
    intro s s1 h
    simp only [visitList] at h
    simp at h
  | cons d rest ih =>
    intro s s1 h hN hstack hm
    simp only [visitList] at h
    cases hs : step s d with
    | none => rw [hs] at h; cases h
    | some p =>
      obtain ⟨t, bd⟩ := p
      rw [hs] at h
      cases bd with
      | false =>
        exact hstepF s d t hs (hstack d (List.mem_cons_self d rest))
          (hN d (List.mem_cons_self d rest)) hm
      | true =>
        dsimp only at h
        obtain ⟨hF, -, -, -, hNp⟩ := hstepT s d t hs
        refine ih t s1 h (fun d' hd' => hN d' (List.mem_cons_of_mem d hd')) ?_
          (hNp (hN d (List.mem_cons_self d rest)) hm)
        intro d' hd' x hx
        rcases hF x with he | ⟨hu, hv2⟩
        · exact hstack d' (List.mem_cons_of_mem d hd') x (he.symm.trans hx)
        · exact absurd (hv2.symm.trans hx) (by simp)

/-- The main false-case theorem for `visit`: under the stack invariant, a
`false` verdict exhibits a dependency cycle inside `N`. -/
theorem visit_false_cycle {V : Type} [DecidableEq V] (deps : V → List V) (N : V → Prop)
    (hclosed : ∀ a, N a → ∀ d ∈ deps a, N d) :
    ∀ (f : Nat) (s : V → DagCheckState) (v : V) (s1 : V → DagCheckState),
      visit deps f s v = some (s1, false) →
      (∀ x, s x = DagCheckState.VISITING → Relation.TransGen (DepStep deps) x v) →
      N v → (∀ x, s x ≠ DagCheckState.UNVISITED → N x) →
      ∃ c, N c ∧ Relation.TransGen (DepStep deps) c c := by
  intro f
  induction f with
  | zero =>
    intro s v s1 h
    rw [visit_zero] at h
    cases h
  | succ f ih =>
    intro s v s1 h hstack hNv hm
    rw [visit_succ] at h
    by_cases h1 : s v = DagCheckState.VISITING
    · exact ⟨v, hNv, hstack v h1⟩
    · rw [if_neg h1] at h
      by_cases h2 : s v = DagCheckState.VISITED
      · rw [if_pos h2] at h
        simp at h
      · rw [if_neg h2] at h
        have hvU : s v = DagCheckState.UNVISITED := dagState_eq_unvisited h1 h2
        cases hvl : visitList (visit deps f)
            (setState s v DagCheckState.VISITING) (deps v) with
        | none => rw [hvl] at h; cases h
        | some p =>
          obtain ⟨t, bl⟩ := p
          rw [hvl] at h
          cases bl with
          | true => simp at h
          | false =>
            dsimp only at h
            cases h
            refine visitList_false_cycle deps N (visit deps f)
              (fun s' v' s1' h' => ih s' v' s1' h')
              (fun s' v' s1' h' => visit_true_props deps N hclosed f s' v' s1' h')
              (deps v) (setState s v DagCheckState.VISITING) s1 hvl
              (hclosed v hNv) ?_ ?_
            · intro d' hd' x hx
              by_cases hxv : x = v
              · rw [hxv]
                exact Relation.TransGen.single hd'
              · rw [setState_ne _ _ _ _ hxv] at hx
                exact Relation.TransGen.tail (hstack x hx) hd'
            · intro x hx
              by_cases hxv : x = v
              · rw [hxv]; exact hNv
              · rw [setState_ne _ _ _ _ hxv] at hx
                exact hm x hx

/-- If the outer loop of `isDAG` answers `true`, no listed vertex lies on
a dependency cycle. -/
theorem dagLoop_true_acyclic {V : Type} [DecidableEq V] (deps : V → List V) (f : Nat) :
    ∀ (l : List V) (s : V → DagCheckState), dagLoop deps f s l = true →
      VisitedClosed deps s → VisitedAcyclic deps s →
      ∀ v ∈ l, ¬ Relation.TransGen (DepStep deps) v v := by
  intro l
  induction l with
  | nil =>
    intro s h hc ha v hv
    cases hv
  | cons w rest ih =>
    intro s h hc ha v hv
    simp only [dagLoop] at h
    by_cases hw : s w = DagCheckState.VISITED
    · rw [if_pos hw] at h
      rcases List.mem_cons.mp hv with rfl | hv2
      · exact ha v hw
      · exact ih s h hc ha v hv2
    · rw [if_neg hw] at h
      cases hvst : visit deps f s w with
      | none => rw [hvst] at h; cases h
      | some p =>
        obtain ⟨t, b⟩ := p
        rw [hvst] at h
        cases b with
        | false => simp at h
        | true =>
          dsimp only at h
          obtain ⟨-, hwV, hC, hA, -⟩ := visit_true_props deps (fun _ => True)
            (fun _ _ _ _ => trivial) f s w t hvst
          have hc2 := hC hc
          have ha2 := hA hc ha
          rcases List.mem_cons.mp hv with rfl | hv2
          · exact ha2 v hwV
          · exact ih t h hc2 ha2 v hv2

/-- If the outer loop of `isDAG` (run with ample fuel) answers `false`,
the dependency relation has a true cycle inside `N`. -/
theorem dagLoop_false_cycle {V : Type} [DecidableEq V] [Fintype V] (deps : V → List V)
    (N : V → Prop) (hclosed : ∀ a, N a → ∀ d ∈ deps a, N d) :
    ∀ (l : List V) (s : V → DagCheckState),
      dagLoop deps (Fintype.card V + 1) s l = false →
      (∀ v ∈ l, N v) → (∀ x, s x ≠ DagCheckState.VISITING) →
      (∀ x, s x ≠ DagCheckState.UNVISITED → N x) →
      ∃ c, N c ∧ Relation.TransGen (DepStep deps) c c := by
  intro l
  induction l with
  | nil =>
    intro s h
    simp [dagLoop] at h
  | cons w rest ih =>
    intro s h hN hnoV hm
    simp only [dagLoop] at h
    by_cases hw : s w = DagCheckState.VISITED
    · rw [if_pos hw] at h
      exact ih s h (fun v hv => hN v (List.mem_cons_of_mem w hv)) hnoV hm
    · rw [if_neg hw] at h
      cases hvst : visit deps (Fintype.card V + 1) s w with
      | none =>
        have hs := visit_isSome deps (Fintype.card V + 1) s w
          (Nat.lt_succ_of_le (countUnvisited_le_card s))
        rw [hvst] at hs
        cases hs
      | some p =>
        obtain ⟨t, b⟩ := p
        rw [hvst] at h
        cases b with
        | false =>
          exact visit_false_cycle deps N hclosed _ s w t hvst
            (fun x hx => absurd hx (hnoV x)) (hN w (List.mem_cons_self w rest)) hm
        | true =>
          dsimp only at h
          obtain ⟨hF, -, -, -, hNp⟩ := visit_true_props deps N hclosed _ s w t hvst
          refine ih t h (fun v hv => hN v (List.mem_cons_of_mem w hv)) ?_
            (hNp (hN w (List.mem_cons_self w rest)) hm)
          intro x
          rcases hF x with he | ⟨-, hv2⟩
          · rw [he]; exact hnoV x
          · rw [hv2]; simp

/-- Correctness of `Run.isDAG` on a dependency-closed graph: it answers
`true` exactly when no graph object lies on a `getAllDependencies`
cycle. -/
theorem isDAG_iff {V : Type} [DecidableEq V] [Fintype V] (g : RunGraph V)
    (hclosed : ∀ a ∈ g.nodes, ∀ d ∈ g.deps a, d ∈ g.nodes) :
    isDAG g = true ↔ ¬ ∃ v ∈ g.nodes, Relation.TransGen (DepStep g.deps) v v := by
  constructor
  · intro h hcyc
    obtain ⟨v, hv, hc⟩ := hcyc
    exact dagLoop_true_acyclic g.deps (Fintype.card V + 1) g.nodes
      (fun _ => DagCheckState.UNVISITED) h
      (fun x hx => by cases hx) (fun c hc2 => by cases hc2) v hv hc
  · intro h
    by_contra hfalse
    rw [Bool.not_eq_true] at hfalse
    obtain ⟨c, hc, hcyc⟩ := dagLoop_false_cycle g.deps (fun v => v ∈ g.nodes)
      (fun a ha d hd => hclosed a ha d hd) g.nodes
      (fun _ => DagCheckState.UNVISITED) hfalse
      (fun v hv => hv) (fun x hx => by cases hx) (fun x hx => absurd rfl hx)
    exact h ⟨c, hc, hcyc⟩

/-- C3 counterexample: a cyclic graph none of whose objects is a
`CannoliVertex` — `isDAG` correctly answers `false`, but `validate()`
finds no vertex to signal, so no error path is triggered, and `start()`
goes on to call `execute()` on the isolated zero-dependency object `2`. -/
theorem C3_counterexample :
    Relation.TransGen (DepStep cycGraphNoVertex.deps) 0 0 ∧
    isDAG cycGraphNoVertex = false ∧
    validateTriggersError cycGraphNoVertex = false ∧
    startSeeds cycGraphNoVertex = [2] :=
  ⟨Relation.TransGen.head (b := (1 : Fin 3))
      (show (1 : Fin 3) ∈ cycGraphNoVertex.deps 0 by decide)
      (Relation.TransGen.single (show (0 : Fin 3) ∈ cycGraphNoVertex.deps 1 by decide)),
   by decide, by decide, by decide⟩

/-- C3 amended: on a dependency-closed graph, `isDAG` (three-color DFS
with an outer loop covering disconnected subgraphs) answers `true`
exactly when the `getAllDependencies` relation is acyclic; and on a
cyclic graph *that contains at least one vertex*, `validate()` triggers
the error path, which throws before any item's `execute()` is invoked. -/
theorem C3_theorem {V : Type} [DecidableEq V] [Fintype V] (g : RunGraph V)
    (hclosed : ∀ a ∈ g.nodes, ∀ d ∈ g.deps a, d ∈ g.nodes) :
    (isDAG g = true ↔ ¬ ∃ v ∈ g.nodes, Relation.TransGen (DepStep g.deps) v v) ∧
    ((∃ v ∈ g.nodes, Relation.TransGen (DepStep g.deps) v v) →
      (∃ v ∈ g.nodes, g.isVertex v = true) →
      validateTriggersError g = true ∧ startSeeds g = []) := by
  have hiff := isDAG_iff g hclosed
  refine ⟨hiff, ?_⟩
  intro hcyc hvert
  have hfalse : isDAG g = false := by
    cases hd : isDAG g with
    | true => exact absurd hcyc (hiff.mp hd)
    | false => rfl
  have htrig : validateTriggersError g = true := by
    obtain ⟨v, hv, hb⟩ := hvert
    simp only [validateTriggersError, hfalse, Bool.not_false, Bool.true_and,
      List.any_eq_true]
    exact ⟨v, hv, hb⟩
  exact ⟨htrig, by simp [startSeeds, htrig]⟩

/-- C3 witness: the amended statement at a concrete cyclic two-vertex
graph. -/
theorem C3_witness :
    (∀ a ∈ cycGraphVertex.nodes, ∀ d ∈ cycGraphVertex.deps a, d ∈ cycGraphVertex.nodes) ∧
    ((isDAG cycGraphVertex = true ↔
        ¬ ∃ v ∈ cycGraphVertex.nodes,
            Relation.TransGen (DepStep cycGraphVertex.deps) v v) ∧
     ((∃ v ∈ cycGraphVertex.nodes, Relation.TransGen (DepStep cycGraphVertex.deps) v v) →
       (∃ v ∈ cycGraphVertex.nodes, cycGraphVertex.isVertex v = true) →
       validateTriggersError cycGraphVertex = true ∧ startSeeds cycGraphVertex = [])) :=
  ⟨by decide, C3_theorem cycGraphVertex (by decide)⟩

end Cannoli
